import Mathlib

/-!
Shallow embedding of `eth_defi/gmx/wallet_adapter_signer.py`
(class `WalletAdapterSigner`) from the `web3-ethereum-defi` repository.

The adapter dispatches `sign_message` / `sign_transaction` / `send_transaction`
over three wallet backends: `HotWallet` (local key, cached next nonce),
`Web3ProviderWallet` (remote-delegated), and any other `BaseWallet`
implementation (generic).  Python exceptions are modelled with an explicit
error type `Exc` threaded through `Except`; the mutable wallet state (the
cached nonce) and the caller's mutable transaction dict are threaded
explicitly through each operation.  External collaborators (the
`eth_account` account object, the wallets' own
`sign_transaction_with_new_nonce`, the web3 chain client) are fields holding
arbitrary functions, since their code lives outside the adapter.
-/

/-- A byte string, each entry a byte value. -/
abbrev Bytes := List Nat

/-- Python exception values as the adapter can observe them: the exception
class, the message, and (for `raise ... from e`) the `__cause__`. -/
inductive Exc where
  | notImplementedError (msg : String)
  | valueError (msg : String) (cause : Option Exc)
  | typeError (msg : String)
  | backendRaised (msg : String)

/-- Python `str(e)` for a single-argument exception: its message. -/
def excMessage : Exc → String
  | .notImplementedError m => m
  | .valueError m _ => m
  | .typeError m => m
  | .backendRaised m => m

/-- A value stored in a transaction field mapping. -/
inductive FieldValue where
  | nat (n : Nat)
  | str (s : String)
  | bytes (b : Bytes)
deriving DecidableEq, Repr

/-- The `TxParams` dict: insertion-ordered keyed fields, keys unique as in a
Python dict. -/
abbrev TxParams := List (String × FieldValue)

/-- Python `d[k]` / `d.get(k)`: first binding of `k`. -/
def dictGet (d : TxParams) (k : String) : Option FieldValue :=
  match d with
  | [] => none
  | (k', v) :: rest => if k' = k then some v else dictGet rest k

/-- Python `k in d`. -/
def dictContains (d : TxParams) (k : String) : Bool :=
  (dictGet d k).isSome

/-- Python `del d[k]` / the removal part of `d.pop(k)`: on a genuine dict the
key occurs at most once, so removing every binding coincides with it. -/
def dictRemove (d : TxParams) (k : String) : TxParams :=
  d.filter (fun p => decide (p.1 ≠ k))

/-- Replace every binding of `k` in place by `v` (a genuine dict has at most
one). -/
def dictReplace : TxParams → String → FieldValue → TxParams
  | [], _, _ => []
  | (k', v') :: rest, k, v =>
    if k' = k then (k, v) :: dictReplace rest k v
    else (k', v') :: dictReplace rest k v

/-- Python `d[k] = v`: replace in place when the key is present, else append
(insertion order). -/
def dictSet (d : TxParams) (k : String) (v : FieldValue) : TxParams :=
  if dictContains d k then dictReplace d k v else d ++ [(k, v)]

/-- A message accepted by `sign_message`: `str`, `int` or `bytes`. -/
inductive MessageInput where
  | str (s : String)
  | int (n : Nat)
  | bytes (b : Bytes)
deriving DecidableEq, Repr

/-- UTF-8 encoding of one character (Python `str.encode("utf-8")`). -/
def utf8EncodeChar (c : Char) : Bytes :=
  let n := c.toNat
  if n < 0x80 then [n]
  else if n < 0x800 then
    [0xC0 ||| (n >>> 6), 0x80 ||| (n &&& 0x3F)]
  else if n < 0x10000 then
    [0xE0 ||| (n >>> 12), 0x80 ||| ((n >>> 6) &&& 0x3F), 0x80 ||| (n &&& 0x3F)]
  else
    [0xF0 ||| (n >>> 18), 0x80 ||| ((n >>> 12) &&& 0x3F),
     0x80 ||| ((n >>> 6) &&& 0x3F), 0x80 ||| (n &&& 0x3F)]

/-- UTF-8 encoding of a string. -/
def utf8Encode (s : String) : Bytes :=
  s.data.flatMap utf8EncodeChar

/-- Value of one hexadecimal digit, `none` on a non-hex character. -/
def hexDigitVal (c : Char) : Option Nat :=
  if '0' ≤ c ∧ c ≤ '9' then some (c.toNat - '0'.toNat)
  else if 'a' ≤ c ∧ c ≤ 'f' then some (c.toNat - 'a'.toNat + 10)
  else if 'A' ≤ c ∧ c ≤ 'F' then some (c.toNat - 'A'.toNat + 10)
  else none

/-- Decode a list of hex digits, two per byte. -/
def hexPairs : List Char → Option Bytes
  | [] => some []
  | c1 :: c2 :: rest => do
      let hi ← hexDigitVal c1
      let lo ← hexDigitVal c2
      let bs ← hexPairs rest
      pure ((16 * hi + lo) :: bs)
  | [_] => none

/-- Decoding `HexBytes(s)` of a `0x`-prefixed string: drop the prefix, left-pad an
odd-length body with `0`, decode hex pairs; a non-hex character raises
`ValueError`. -/
def hexBytes (s : String) : Except Exc Bytes :=
  let body := s.data.drop 2
  let padded := if body.length % 2 == 1 then '0' :: body else body
  match hexPairs padded with
  | some bs => .ok bs
  | none => .error (.valueError "non-hexadecimal digit found" none)

/-- Big-endian digits of `n` in base 256, most significant first; the fuel
argument (any bound on the number of digits, e.g. `n` itself) only drives
the recursion. -/
def beBytesAux : Nat → Nat → Bytes
  | 0, _ => []
  | fuel + 1, n => if n = 0 then [] else beBytesAux fuel (n / 256) ++ [n % 256]

/-- Encoding `Web3.to_bytes` of a nonneg int: big-endian bytes without leading
zeros, except `0`, which encodes as a single zero byte. -/
def natToBEBytes (n : Nat) : Bytes :=
  if n = 0 then [0] else beBytesAux n n

/-- Python `s.startswith("0x")`. -/
def startsWith0x (s : String) : Bool :=
  match s.data with
  | '0' :: 'x' :: _ => true
  | _ => false

/-- The canonical byte sequence the adapter derives from a message before
wrapping it with `encode_defunct` (lines 59-69 of the source): `0x`-prefixed
strings are hex-decoded, other strings UTF-8 encoded, ints become big-endian
bytes, bytes pass through. -/
def normalizeMessage : MessageInput → Except Exc Bytes
  | .str s => if startsWith0x s then hexBytes s else .ok (utf8Encode s)
  | .int n => .ok (natToBEBytes n)
  | .bytes b => .ok b

/-- Model of `eth_account.messages.encode_defunct`: the EIP-191 personal-message
wrapping of a byte string; a fixed deterministic function of the bytes. -/
structure SignableMessage where
  body : Bytes
deriving DecidableEq, Repr

/-- Build the signable message from canonical bytes. -/
def encode_defunct (b : Bytes) : SignableMessage := ⟨b⟩

/-- Result of a backend message-sign: `eth_account`'s `SignedMessage` shape,
of which the adapter reads `signature` and `messageHash`. -/
structure SignedMessage where
  signature : Bytes
  messageHash : Bytes
deriving DecidableEq, Repr

/-- A signed transaction as `send_transaction` inspects it: the two
duck-typed raw-bytes accessors tried by `hasattr`, and the
`SignedTransactionWithNonce` fallback shape with its own raw bytes. -/
structure SignedResult where
  rawTransaction : Option Bytes
  raw_transaction : Option Bytes
  isSignedTxWithNonce : Bool
  nonceShapeRaw : Bytes
deriving DecidableEq, Repr

/-- The `eth_account` account object held by a `HotWallet`; its signing
functions are external code with no reference back to the wallet, so they
cannot touch the wallet's cached nonce. -/
structure Account where
  sign_transaction_fn : TxParams → Except Exc SignedResult
  sign_message_fn : SignableMessage → Except Exc SignedMessage

/-- A local key wallet: account object and cached next nonce
(`current_nonce`, `None` when unset).  `sign_transaction_with_new_nonce` is
the wallet's own external allocator-and-sign; it receives and returns the
cached-nonce state it manages. -/
structure HotWallet where
  account : Account
  current_nonce : Option Nat
  sign_transaction_with_new_nonce :
    TxParams → Option Nat → Except Exc SignedResult × Option Nat

/-- The remote-delegated wallet.  `allocate_nonce` is `none` when the
attribute is absent (`hasattr` false), else the value a call returns. -/
structure Web3ProviderWallet where
  allocate_nonce : Option Nat
  sign_transaction_with_new_nonce : TxParams → Except Exc SignedResult

/-- Any other `BaseWallet` implementation.  `sign_message` is the optional
message-signing capability (`hasattr` check); `current_nonce` is
`none` when the attribute is absent, `some none` when it is `None`;
`sign_transaction_with_new_nonce` receives and returns that attribute
state. -/
structure GenericWallet where
  sign_message : Option (SignableMessage → Except Exc SignedMessage)
  current_nonce : Option (Option Nat)
  sign_transaction_with_new_nonce :
    TxParams → Option (Option Nat) → Except Exc SignedResult × Option (Option Nat)

/-- The wallet the adapter wraps, dispatched by `isinstance`. -/
inductive Wallet where
  | hot : HotWallet → Wallet
  | provider : Web3ProviderWallet → Wallet
  | generic : GenericWallet → Wallet

/-- The chain client (`web3.eth`). -/
structure Web3 where
  send_transaction : TxParams → Except Exc Bytes
  send_raw_transaction : Bytes → Except Exc Bytes

namespace WalletAdapterSigner

/-- Model of `WalletAdapterSigner.sign_message` (source lines 44-92).  Returns the
outcome together with the (unchanged) wallet: the method performs no wallet
writes.  The message normalization happens before the `try` block, so a hex
decoding error propagates unwrapped; every exception raised inside the
`try` — including the backend's `NotImplementedError`s, which the blanket
`except Exception` also catches — is re-raised as
`ValueError("Failed to sign message: ...") from e`. -/
def sign_message (w : Wallet) (message : MessageInput) :
    Except Exc Bytes × Wallet :=
  match normalizeMessage message with
  | .error e => (.error e, w)
  | .ok body =>
    let signable_message := encode_defunct body
    let inner : Except Exc Bytes :=
      match w with
      | .hot h =>
        match h.account.sign_message_fn signable_message with
        | .ok sg => .ok sg.signature
        | .error e => .error e
      | .provider _ =>
        .error (.notImplementedError
          "Message signing not implemented for wallet type: Web3ProviderWallet")
      | .generic g =>
        match g.sign_message with
        | some f =>
          match f signable_message with
          | .ok sg => .ok sg.messageHash
          | .error e => .error e
        | none =>
          .error (.notImplementedError
            "Message signing not implemented for wallet type: BaseWallet")
    match inner with
    | .ok v => (.ok v, w)
    | .error e =>
      (.error (.valueError ("Failed to sign message: " ++ excMessage e) (some e)), w)

/-- Model of `WalletAdapterSigner.sign_transaction` (source lines 94-135).  Returns
the outcome, the wallet state after the call, and the caller's transaction
dict after the call (the generic branch pops and later restores `"nonce"`
in place). -/
def sign_transaction (w : Wallet) (unsigned_tx : TxParams) :
    Except Exc SignedResult × Wallet × TxParams :=
  match dictGet unsigned_tx "nonce" with
  | some nv =>
    match w with
    | .hot h =>
      match h.account.sign_transaction_fn unsigned_tx with
      | .error e => (.error e, w, unsigned_tx)
      | .ok result =>
        match h.current_nonce with
        | none => (.ok result, w, unsigned_tx)
        | some c =>
          match nv with
          | .nat n =>
            (.ok result, .hot { h with current_nonce := some (max (n + 1) c) },
             unsigned_tx)
          | _ => (.error (.typeError "unsupported operand type(s) for +"), w,
                  unsigned_tx)
    | .provider _ =>
      (.error (.notImplementedError
        "Direct signing with nonce not supported for Web3ProviderWallet"), w,
       unsigned_tx)
    | .generic g =>
      let tx1 := dictRemove unsigned_tx "nonce"
      match g.sign_transaction_with_new_nonce tx1 g.current_nonce with
      | (.error e, a') => (.error e, .generic { g with current_nonce := a' }, tx1)
      | (.ok result, a') =>
        let tx2 := dictSet tx1 "nonce" nv
        match a' with
        | some (some c) =>
          match nv with
          | .nat n =>
            (.ok result,
             .generic { g with current_nonce := some (some (max (n + 1) c)) }, tx2)
          | _ => (.error (.typeError "unsupported operand type(s) for +"),
                  .generic { g with current_nonce := a' }, tx2)
        | _ => (.ok result, .generic { g with current_nonce := a' }, tx2)
  | none =>
    match w with
    | .hot h =>
      let r := h.sign_transaction_with_new_nonce unsigned_tx h.current_nonce
      (r.1, .hot { h with current_nonce := r.2 }, unsigned_tx)
    | .provider p =>
      (p.sign_transaction_with_new_nonce unsigned_tx, w, unsigned_tx)
    | .generic g =>
      let r := g.sign_transaction_with_new_nonce unsigned_tx g.current_nonce
      (r.1, .generic { g with current_nonce := r.2 }, unsigned_tx)

/-- The wrapper applied by `send_transaction`'s `except` clause:
`ValueError(f"Failed to send transaction: {e!s}") from e`. -/
def wrapSendErr (e : Exc) : Exc :=
  .valueError ("Failed to send transaction: " ++ excMessage e) (some e)

/-- Raw-bytes extraction from a signed transaction (source lines 169-177):
try `rawTransaction`, then `raw_transaction`, then the
`SignedTransactionWithNonce` shape, else `ValueError`. -/
def extractRaw (signed_tx : SignedResult) : Except Exc Bytes :=
  match signed_tx.rawTransaction with
  | some raw_tx => .ok raw_tx
  | none =>
    match signed_tx.raw_transaction with
    | some raw_tx => .ok raw_tx
    | none =>
      if signed_tx.isSignedTxWithNonce then .ok signed_tx.nonceShapeRaw
      else .error (.valueError "Unknown signed transaction format" none)

/-- The field mapping the delegated path of `send_transaction` hands to the
chain client (source lines 153-160): a copy of the request with `"from"`
deleted, and a nonce allocated only when the copy has none and the wallet
has an `allocate_nonce` attribute. -/
def providerTxPayload (p : Web3ProviderWallet) (unsigned_tx : TxParams) :
    TxParams :=
  let tx_copy := dictRemove unsigned_tx "from"
  if dictContains tx_copy "nonce" then tx_copy
  else
    match p.allocate_nonce with
    | some n => dictSet tx_copy "nonce" (.nat n)
    | none => tx_copy

/-- Model of `WalletAdapterSigner.send_transaction` (source lines 137-182).  The
delegated branch runs before (outside) the `try` block; every other branch
signs, extracts raw bytes and submits inside the `try`, whose `except`
wraps any exception with `wrapSendErr`. -/
def send_transaction (web3 : Web3) (w : Wallet) (unsigned_tx : TxParams) :
    Except Exc Bytes × Wallet × TxParams :=
  match w with
  | .provider p =>
    (web3.send_transaction (providerTxPayload p unsigned_tx), w, unsigned_tx)
  | _ =>
    match sign_transaction w unsigned_tx with
    | (.error e, w', tx') => (.error (wrapSendErr e), w', tx')
    | (.ok signed_tx, w', tx') =>
      match extractRaw signed_tx with
      | .error e => (.error (wrapSendErr e), w', tx')
      | .ok raw_tx =>
        match web3.send_raw_transaction raw_tx with
        | .error e => (.error (wrapSendErr e), w', tx')
        | .ok h => (.ok h, w', tx')

end WalletAdapterSigner

/-- The cached next-sequence-number a generic wallet's `current_nonce`
attribute holds, flattening attribute absence and `None` to "unset". -/
def flatNonce : Option (Option Nat) → Option Nat
  | some (some n) => some n
  | _ => none

/-- The cached next-sequence-number of a wallet, where one exists: the
`current_nonce` of a `HotWallet` or of a generic wallet carrying the
attribute; a `Web3ProviderWallet` keeps no local cache the adapter reads. -/
def cacheOf : Wallet → Option Nat
  | .hot h => h.current_nonce
  | .provider _ => none
  | .generic g => flatNonce g.current_nonce

/-- "The cache never regressed": whenever the first cache is set, the second
is set to a value at least as large. -/
def cacheLe (a b : Option Nat) : Prop :=
  ∀ n, a = some n → ∃ m, b = some m ∧ n ≤ m

/-- The external collaborator contract the spec states for wallets that
track sequencing locally: the wallet's own allocate-and-sign operation never
retreats the cached next-sequence-number (spec §3: "once set, it must be
monotonically non-decreasing; it is advanced, never retreated, by successful
signs"). -/
def extMonotone : Wallet → Prop
  | .hot h => ∀ tx cn, cacheLe cn (h.sign_transaction_with_new_nonce tx cn).2
  | .provider _ => True
  | .generic g =>
      ∀ tx a, cacheLe (flatNonce a) (flatNonce (g.sign_transaction_with_new_nonce tx a).2)

/-! Concrete collaborator instances used by the witness theorems. -/

/-- A signed transaction exposing raw bytes under `rawTransaction`. -/
def srSample : SignedResult :=
  { rawTransaction := some [9, 9], raw_transaction := none,
    isSignedTxWithNonce := false, nonceShapeRaw := [] }

/-- A signed transaction exposing no raw-bytes accessor at all. -/
def srNoAccessor : SignedResult :=
  { rawTransaction := none, raw_transaction := none,
    isSignedTxWithNonce := false, nonceShapeRaw := [] }

/-- An account whose signing operations succeed. -/
def acctOk : Account :=
  { sign_transaction_fn := fun _ => .ok srSample,
    sign_message_fn := fun sm => .ok { signature := sm.body, messageHash := [0] } }

/-- An account whose signing operations fail with a backend error. -/
def acctFail : Account :=
  { sign_transaction_fn := fun _ => .error (.backendRaised "sigfail"),
    sign_message_fn := fun _ => .error (.backendRaised "sigfail") }

/-- A chain client that accepts everything and echoes raw bytes back as the
transaction hash, making the submitted bytes observable. -/
def w3Echo : Web3 :=
  { send_transaction := fun _ => .ok [1],
    send_raw_transaction := fun b => .ok b }

/-- A chain client whose delegated submission fails with a backend error. -/
def w3Boom : Web3 :=
  { send_transaction := fun _ => .error (.backendRaised "boom"),
    send_raw_transaction := fun _ => .ok [] }

/-- Local wallet with cached nonce 5 (claim C1's example scenario). -/
def hotC1 : HotWallet :=
  { account := acctOk, current_nonce := some 5,
    sign_transaction_with_new_nonce := fun _ cn => (.ok srSample, cn) }

/-- Transaction request carrying explicit nonce 10. -/
def txC1 : TxParams := [("to", .str "0xdead"), ("nonce", .nat 10)]

/-- Local wallet whose own allocate-and-sign advances the cache by one. -/
def hotC2 : HotWallet :=
  { account := acctOk, current_nonce := some 5,
    sign_transaction_with_new_nonce :=
      fun _ cn => (.ok srSample, Option.map (· + 1) cn) }

/-- Transaction request with explicit nonce 3. -/
def txC2 : TxParams := [("nonce", .nat 3)]

/-- A remote-delegated wallet instance. -/
def pC3 : Web3ProviderWallet :=
  { allocate_nonce := some 7,
    sign_transaction_with_new_nonce := fun _ => .error (.backendRaised "never") }

/-- Generic wallet whose message-signing capability returns signature `[1]`
and message hash `[2]`, separating the two observably. -/
def gCap : GenericWallet :=
  { sign_message := some (fun _ => .ok { signature := [1], messageHash := [2] }),
    current_nonce := none,
    sign_transaction_with_new_nonce := fun _ a => (.ok srSample, a) }

/-- Generic wallet with no message-signing capability. -/
def gNoCap : GenericWallet :=
  { sign_message := none, current_nonce := none,
    sign_transaction_with_new_nonce := fun _ a => (.ok srSample, a) }

/-- Remote-delegated wallet with no `allocate_nonce` attribute. -/
def pC5 : Web3ProviderWallet :=
  { allocate_nonce := none,
    sign_transaction_with_new_nonce := fun _ => .error (.backendRaised "never") }

/-- Local wallet whose account signing fails with a backend error. -/
def hotFail : HotWallet :=
  { account := acctFail, current_nonce := none,
    sign_transaction_with_new_nonce :=
      fun _ cn => (.error (.backendRaised "sigfail"), cn) }

/-- Transaction request with explicit nonce 1. -/
def txC5 : TxParams := [("nonce", .nat 1)]

/-- Generic wallet tracking `current_nonce = 2`, leaving it unchanged on its
own signs. -/
def gC6 : GenericWallet :=
  { sign_message := none, current_nonce := some (some 2),
    sign_transaction_with_new_nonce := fun _ a => (.ok srSample, a) }

/-- Transaction request with destination and explicit nonce 7. -/
def txC6 : TxParams := [("to", .str "0xcafe"), ("nonce", .nat 7)]

/-- Remote-delegated wallet whose allocator returns 42. -/
def pC7 : Web3ProviderWallet :=
  { allocate_nonce := some 42,
    sign_transaction_with_new_nonce := fun _ => .error (.backendRaised "never") }

/-- Request carrying a sender address and no nonce. -/
def txC7 : TxParams := [("from", .str "0xme"), ("value", .nat 1)]

/-- Local wallet with cached nonce 0 that signs successfully. -/
def hotC8 : HotWallet :=
  { account := acctOk, current_nonce := some 0,
    sign_transaction_with_new_nonce := fun _ cn => (.ok srSample, cn) }

/-- Transaction request with explicit nonce 1. -/
def txC8 : TxParams := [("nonce", .nat 1)]

/-- Local wallet used for message-sign determinism. -/
def hotC9 : HotWallet :=
  { account := acctOk, current_nonce := some 0,
    sign_transaction_with_new_nonce := fun _ cn => (.ok srSample, cn) }

/-- Local wallet whose cached nonce is unset. -/
def hotC10 : HotWallet :=
  { account := acctOk, current_nonce := none,
    sign_transaction_with_new_nonce := fun _ cn => (.ok srSample, cn) }

/-- Generic wallet whose `current_nonce` attribute is `None`, left unchanged
by its own signs. -/
def gC10 : GenericWallet :=
  { sign_message := none, current_nonce := some none,
    sign_transaction_with_new_nonce := fun _ a => (.ok srSample, a) }

/-- Transaction request with explicit nonce 3. -/
def txC10 : TxParams := [("nonce", .nat 3)]

/-! ### Dictionary lemmas -/

/-- Removing a key removes every binding of it. -/
theorem dictGet_dictRemove_self (d : TxParams) (k : String) :
    dictGet (dictRemove d k) k = none := by
  induction d with
  | nil => rfl
  | cons p rest ih =>
    obtain ⟨k1, v1⟩ := p
    by_cases h : k1 = k
    · simpa [dictRemove, List.filter_cons, h] using ih
    · simpa [dictRemove, List.filter_cons, h, dictGet] using ih

/-- Removing one key leaves every other key's binding unchanged. -/
theorem dictGet_dictRemove_other (d : TxParams) (k k' : String) (h : k' ≠ k) :
    dictGet (dictRemove d k) k' = dictGet d k' := by
  induction d with
  | nil => rfl
  | cons p rest ih =>
    obtain ⟨k1, v1⟩ := p
    by_cases h1 : k1 = k
    · subst h1
      simpa [dictRemove, List.filter_cons, dictGet, Ne.symm h] using ih
    · by_cases h2 : k1 = k'
      · subst h2
        simp [dictRemove, List.filter_cons, h1, dictGet]
      · simpa [dictRemove, List.filter_cons, h1, dictGet, h2] using ih

/-- In-place replacement of a present key yields the new value. -/
theorem dictGet_dictReplace_self (d : TxParams) (k : String) (v : FieldValue)
    (h : dictGet d k ≠ none) :
    dictGet (dictReplace d k v) k = some v := by
  induction d with
  | nil => simp [dictGet] at h
  | cons p rest ih =>
    obtain ⟨k1, v1⟩ := p
    by_cases h1 : k1 = k
    · subst h1
      simp [dictReplace, dictGet]
    · simp only [dictGet, if_neg h1] at h
      simpa [dictReplace, h1, dictGet] using ih h

/-- In-place replacement of one key leaves other keys' bindings unchanged. -/
theorem dictGet_dictReplace_other (d : TxParams) (k k' : String) (v : FieldValue)
    (h : k' ≠ k) :
    dictGet (dictReplace d k v) k' = dictGet d k' := by
  induction d with
  | nil => rfl
  | cons p rest ih =>
    obtain ⟨k1, v1⟩ := p
    by_cases h1 : k1 = k
    · subst h1
      simpa [dictReplace, dictGet, Ne.symm h] using ih
    · by_cases h2 : k1 = k'
      · subst h2
        simp [dictReplace, h1, dictGet]
      · simpa [dictReplace, h1, dictGet, h2] using ih

/-- Appending a binding for an absent key makes it the key's value. -/
theorem dictGet_append_self (d : TxParams) (k : String) (v : FieldValue)
    (h : dictGet d k = none) :
    dictGet (d ++ [(k, v)]) k = some v := by
  induction d with
  | nil => simp [dictGet]
  | cons p rest ih =>
    obtain ⟨k1, v1⟩ := p
    by_cases h1 : k1 = k
    · simp [dictGet, h1] at h
    · simp only [dictGet, h1, if_neg h1] at h
      simpa [dictGet, h1] using ih h

/-- Appending a binding for one key leaves other keys' bindings unchanged. -/
theorem dictGet_append_other (d : TxParams) (k k' : String) (v : FieldValue)
    (h : k' ≠ k) :
    dictGet (d ++ [(k, v)]) k' = dictGet d k' := by
  induction d with
  | nil => simp [dictGet, Ne.symm h]
  | cons p rest ih =>
    obtain ⟨k1, v1⟩ := p
    by_cases h2 : k1 = k'
    · simp [dictGet, h2]
    · simpa [dictGet, h2] using ih

/-- Setting `d[k] = v` then reading `d[k]` gives back `v`. -/
theorem dictGet_dictSet_self (d : TxParams) (k : String) (v : FieldValue) :
    dictGet (dictSet d k v) k = some v := by
  unfold dictSet
  by_cases hc : dictContains d k
  · rw [if_pos hc]
    exact dictGet_dictReplace_self d k v (by
      intro hnone
      simp [dictContains, hnone] at hc)
  · rw [if_neg hc]
    exact dictGet_append_self d k v (by
      by_contra hne
      rcases Option.ne_none_iff_exists.mp hne with ⟨w, hw⟩
      simp [dictContains, ← hw] at hc)

/-- Setting `d[k] = v` leaves every other key's binding unchanged. -/
theorem dictGet_dictSet_other (d : TxParams) (k k' : String) (v : FieldValue)
    (h : k' ≠ k) :
    dictGet (dictSet d k v) k' = dictGet d k' := by
  unfold dictSet
  by_cases hc : dictContains d k
  · rw [if_pos hc]; exact dictGet_dictReplace_other d k k' v h
  · rw [if_neg hc]; exact dictGet_append_other d k k' v h

/-! ### Claim theorems -/

/-- C1: on a local (HotWallet) backend with its cached next-sequence-number
set to `c`, `sign_transaction` with an unsigned transaction carrying an
explicit nonce `n` signs it and sets the cache to `max (n+1) c`; hence the
cache is `≥ n+1` afterward and never below its previous value. -/
theorem hot_explicit_nonce_reconciles
    (h : HotWallet) (tx : TxParams) (c n : Nat) (r : SignedResult)
    (hc : h.current_nonce = some c)
    (hn : dictGet tx "nonce" = some (.nat n))
    (hs : h.account.sign_transaction_fn tx = .ok r) :
    WalletAdapterSigner.sign_transaction (.hot h) tx =
      (.ok r, .hot { h with current_nonce := some (max (n + 1) c) }, tx) ∧
    n + 1 ≤ max (n + 1) c ∧ c ≤ max (n + 1) c := by
  refine ⟨?_, le_max_left _ _, le_max_right _ _⟩
  unfold WalletAdapterSigner.sign_transaction
  rw [hn]
  simp [hs, hc]

/-- C1 witness: cached nonce 5, explicit nonce 10, cache becomes 11. -/
theorem hot_explicit_nonce_reconciles_w :
    WalletAdapterSigner.sign_transaction (.hot hotC1) txC1 =
      (.ok srSample, .hot { hotC1 with current_nonce := some 11 }, txC1) := by
  have h := hot_explicit_nonce_reconciles hotC1 txC1 5 10 srSample rfl rfl rfl
  have hm : max (10 + 1) 5 = 11 := by decide
  rw [hm] at h
  exact h.1

/-- C6: `sign_transaction` on a generic backend with a request carrying an
explicit sequence number pops the nonce, delegates, then restores it: once
the delegated sign returns, the caller's request reads back the original
nonce value, whatever the wallet's nonce-tracking state does. -/
theorem generic_explicit_nonce_restored
    (g : GenericWallet) (tx : TxParams) (nv : FieldValue)
    (r : SignedResult) (a' : Option (Option Nat))
    (hn : dictGet tx "nonce" = some nv)
    (hgs : g.sign_transaction_with_new_nonce (dictRemove tx "nonce") g.current_nonce
             = (.ok r, a')) :
    dictGet (WalletAdapterSigner.sign_transaction (.generic g) tx).2.2 "nonce"
      = dictGet tx "nonce" := by
  unfold WalletAdapterSigner.sign_transaction
  rw [hn]
  simp only [hgs]
  have hset := dictGet_dictSet_self (dictRemove tx "nonce") "nonce" nv
  rcases a' with _ | a2
  · simp [hset, hn]
  · rcases a2 with _ | c
    · simp [hset, hn]
    · cases nv <;> simp [hset, hn]

/-- C6 witness: generic wallet tracking nonce 2, request with nonce 7; the
request still reads nonce 7 after the call. -/
theorem generic_explicit_nonce_restored_w :
    dictGet (WalletAdapterSigner.sign_transaction (.generic gC6) txC6).2.2 "nonce"
      = dictGet txC6 "nonce" :=
  generic_explicit_nonce_restored gC6 txC6 (.nat 7) srSample (some (some 2)) rfl rfl

/-- C10: with the cached next-sequence-number unset, `sign_transaction` with
an explicit nonce signs successfully and performs no reconciliation: a
HotWallet with `current_nonce = None` is returned unchanged, and a generic
wallet whose `current_nonce` attribute is absent or `None` (and whose own
sign leaves that attribute alone) keeps it absent or `None`. -/
theorem unset_cache_skips_reconcile
    (h : HotWallet) (g : GenericWallet) (tx gtx : TxParams)
    (nv gnv : FieldValue) (r gr : SignedResult)
    (hc : h.current_nonce = none)
    (hn : dictGet tx "nonce" = some nv)
    (hs : h.account.sign_transaction_fn tx = .ok r)
    (hgn : dictGet gtx "nonce" = some gnv)
    (hga : g.current_nonce = none ∨ g.current_nonce = some none)
    (hgs : g.sign_transaction_with_new_nonce (dictRemove gtx "nonce") g.current_nonce
             = (.ok gr, g.current_nonce)) :
    WalletAdapterSigner.sign_transaction (.hot h) tx = (.ok r, .hot h, tx) ∧
    WalletAdapterSigner.sign_transaction (.generic g) gtx =
      (.ok gr, .generic g, dictSet (dictRemove gtx "nonce") "nonce" gnv) := by
  constructor
  · unfold WalletAdapterSigner.sign_transaction
    rw [hn]
    simp [hs, hc]
  · obtain ⟨gsm, gcn, gstw⟩ := g
    rcases hga with hga | hga <;> subst hga <;>
      · unfold WalletAdapterSigner.sign_transaction
        rw [hgn]
        dsimp only at hgs ⊢
        rw [hgs]

/-- C10 witness: HotWallet with `current_nonce = None` and a generic wallet
with `current_nonce = None`, both signing a request with nonce 3. -/
theorem unset_cache_skips_reconcile_w :
    WalletAdapterSigner.sign_transaction (.hot hotC10) txC10
      = (.ok srSample, .hot hotC10, txC10) ∧
    WalletAdapterSigner.sign_transaction (.generic gC10) txC10 =
      (.ok srSample, .generic gC10, dictSet (dictRemove txC10 "nonce") "nonce" (.nat 3)) :=
  unset_cache_skips_reconcile hotC10 gC10 txC10 txC10 (.nat 3) (.nat 3)
    srSample srSample rfl rfl rfl rfl (Or.inr rfl) rfl

/-- C3: evaluating `sign_message` on the remote-delegated backend.  The
backend raises `NotImplementedError` naming `Web3ProviderWallet` before any
wallet or network call, but because that raise sits inside the `try` block,
the blanket `except Exception` re-raises it as
`ValueError("Failed to sign message: ...")` with the `NotImplementedError`
as cause — the caller receives the SigningFailed wrapper, not the
UnsupportedOperation error the claim (and the method's docstring)
promise. -/
theorem provider_sign_message_wrapped :
    WalletAdapterSigner.sign_message (.provider pC3) (.str "hello") =
      (.error (.valueError
          "Failed to sign message: Message signing not implemented for wallet type: Web3ProviderWallet"
          (some (.notImplementedError
            "Message signing not implemented for wallet type: Web3ProviderWallet"))),
       .provider pC3) := rfl

/-- C4: evaluating `sign_message` on a generic backend.  With a
message-signing capability that returns signature `[1]` and message hash
`[2]`, the adapter returns `[2]` — the `messageHash` field, not the
signature; with the capability absent, the `NotImplementedError` is
re-wrapped by the enclosing `try` into the `ValueError` SigningFailed
wrapper instead of surfacing as UnsupportedOperation. -/
theorem generic_sign_message_returns_hash :
    WalletAdapterSigner.sign_message (.generic gCap) (.str "hello") =
      (.ok [2], .generic gCap) ∧
    WalletAdapterSigner.sign_message (.generic gNoCap) (.str "hello") =
      (.error (.valueError
          "Failed to sign message: Message signing not implemented for wallet type: BaseWallet"
          (some (.notImplementedError
            "Message signing not implemented for wallet type: BaseWallet"))),
       .generic gNoCap) :=
  ⟨rfl, rfl⟩

/-- C9: on a local (HotWallet) backend, `sign_message` factors through the
canonical byte sequence: any two accepted message inputs that normalize to
the same bytes produce the same signature (and the same overall outcome). -/
theorem hot_sign_message_deterministic
    (h : HotWallet) (m1 m2 : MessageInput) (b : Bytes)
    (h1 : normalizeMessage m1 = .ok b)
    (h2 : normalizeMessage m2 = .ok b) :
    WalletAdapterSigner.sign_message (.hot h) m1 =
      WalletAdapterSigner.sign_message (.hot h) m2 := by
  unfold WalletAdapterSigner.sign_message
  rw [h1, h2]

/-- C9 witness: the UTF-8 string "hi", the hex string "0x6869" and the
integer 26729 all normalize to bytes `[104, 105]` and sign identically. -/
theorem hot_sign_message_deterministic_w :
    normalizeMessage (.str "hi") = .ok [104, 105] ∧
    normalizeMessage (.str "0x6869") = .ok [104, 105] ∧
    normalizeMessage (.int 26729) = .ok [104, 105] ∧
    WalletAdapterSigner.sign_message (.hot hotC9) (.str "hi") =
      WalletAdapterSigner.sign_message (.hot hotC9) (.str "0x6869") ∧
    WalletAdapterSigner.sign_message (.hot hotC9) (.str "hi") =
      WalletAdapterSigner.sign_message (.hot hotC9) (.int 26729) :=
  ⟨rfl, rfl, rfl,
   hot_sign_message_deterministic hotC9 _ _ [104, 105] rfl rfl,
   hot_sign_message_deterministic hotC9 _ _ [104, 105] rfl rfl⟩

/-- C7: the delegated path of `send_transaction` submits to the chain client
a copy of the request with the sender address removed: the payload has no
`"from"` field even when the input had one, every other field passes through
unchanged, an explicit nonce is honored verbatim, and a nonce is added only
when the request had none and the wallet exposes `allocate_nonce`. -/
theorem provider_payload_omits_sender
    (web3 : Web3) (p : Web3ProviderWallet) (tx : TxParams) :
    (WalletAdapterSigner.send_transaction web3 (.provider p) tx).1 =
      web3.send_transaction (WalletAdapterSigner.providerTxPayload p tx) ∧
    dictGet (WalletAdapterSigner.providerTxPayload p tx) "from" = none ∧
    (∀ k, k ≠ "from" → k ≠ "nonce" →
      dictGet (WalletAdapterSigner.providerTxPayload p tx) k = dictGet tx k) ∧
    (∀ v, dictGet tx "nonce" = some v →
      dictGet (WalletAdapterSigner.providerTxPayload p tx) "nonce" = some v) ∧
    (dictGet tx "nonce" = none → p.allocate_nonce = none →
      WalletAdapterSigner.providerTxPayload p tx = dictRemove tx "from") ∧
    (∀ a, dictGet tx "nonce" = none → p.allocate_nonce = some a →
      dictGet (WalletAdapterSigner.providerTxPayload p tx) "nonce" = some (.nat a)) := by
  have hno : dictGet (dictRemove tx "from") "nonce" = dictGet tx "nonce" :=
    dictGet_dictRemove_other tx "from" "nonce" (by decide)
  have hfr : dictGet (dictRemove tx "from") "from" = none :=
    dictGet_dictRemove_self tx "from"
  rcases hnn : dictGet tx "nonce" with _ | v
  · rcases han : p.allocate_nonce with _ | a
    · have hpay : WalletAdapterSigner.providerTxPayload p tx = dictRemove tx "from" := by
        unfold WalletAdapterSigner.providerTxPayload
        rw [if_neg (by simp [dictContains, hno, hnn]), han]
      refine ⟨rfl, ?_, ?_, ?_, ?_, ?_⟩
      · rw [hpay]; exact hfr
      · intro k hk1 hk2
        rw [hpay]; exact dictGet_dictRemove_other tx "from" k hk1
      · intro v hv; exact absurd hv (by simp)
      · intro _ _; exact hpay
      · intro a _ ha; exact absurd ha (by simp)
    · have hpay : WalletAdapterSigner.providerTxPayload p tx =
          dictSet (dictRemove tx "from") "nonce" (.nat a) := by
        unfold WalletAdapterSigner.providerTxPayload
        rw [if_neg (by simp [dictContains, hno, hnn]), han]
      refine ⟨rfl, ?_, ?_, ?_, ?_, ?_⟩
      · rw [hpay, dictGet_dictSet_other _ _ _ _ (by decide)]; exact hfr
      · intro k hk1 hk2
        rw [hpay, dictGet_dictSet_other _ _ _ _ hk2]
        exact dictGet_dictRemove_other tx "from" k hk1
      · intro v hv; exact absurd hv (by simp)
      · intro hv han2; exact absurd han2 (by simp)
      · intro a2 _ ha2
        obtain rfl : a = a2 := by injection ha2
        rw [hpay]; exact dictGet_dictSet_self _ _ _
  · have hpay : WalletAdapterSigner.providerTxPayload p tx = dictRemove tx "from" := by
      unfold WalletAdapterSigner.providerTxPayload
      rw [if_pos (by simp [dictContains, hno, hnn])]
    refine ⟨rfl, ?_, ?_, ?_, ?_, ?_⟩
    · rw [hpay]; exact hfr
    · intro k hk1 hk2
      rw [hpay]; exact dictGet_dictRemove_other tx "from" k hk1
    · intro v2 hv2
      rw [hpay, hno, hnn]; exact hv2
    · intro hv; exact absurd hv (by simp)
    · intro a hv _; exact absurd hv (by simp)

/-- C7 witness: request `{from: "0xme", value: 1}` with an allocator
returning 42, and the no-allocator wallet on the same request. -/
theorem provider_payload_omits_sender_w :
    dictGet (WalletAdapterSigner.providerTxPayload pC7 txC7) "from" = none ∧
    dictGet (WalletAdapterSigner.providerTxPayload pC7 txC7) "value"
      = dictGet txC7 "value" ∧
    dictGet (WalletAdapterSigner.providerTxPayload pC7 txC7) "nonce"
      = some (.nat 42) ∧
    WalletAdapterSigner.providerTxPayload pC5 txC7 = dictRemove txC7 "from" := by
  have H1 := provider_payload_omits_sender w3Echo pC7 txC7
  have H2 := provider_payload_omits_sender w3Echo pC5 txC7
  exact ⟨H1.2.1, H1.2.2.1 "value" (by decide) (by decide),
    H1.2.2.2.2.2 42 rfl rfl, H2.2.2.2.2.1 rfl rfl⟩

/-- C8: on a non-delegated backend, `send_transaction` extracts the signed
result's raw bytes trying `rawTransaction`, then `raw_transaction`, then the
`SignedTransactionWithNonce` shape, in that order; it passes exactly the
extracted bytes to the chain client's raw submission; and when no accessor
matches it raises the `ValueError("Unknown signed transaction format")`
(`MalformedSignedTransaction`) failure, surfaced through the adapter's
blanket TransactionSendFailed wrapper with the malformed error as cause. -/
theorem send_raw_extraction :
    (∀ s b, s.rawTransaction = some b → WalletAdapterSigner.extractRaw s = .ok b) ∧
    (∀ s b, s.rawTransaction = none → s.raw_transaction = some b →
      WalletAdapterSigner.extractRaw s = .ok b) ∧
    (∀ s, s.rawTransaction = none → s.raw_transaction = none →
      s.isSignedTxWithNonce = true →
      WalletAdapterSigner.extractRaw s = .ok s.nonceShapeRaw) ∧
    (∀ s, s.rawTransaction = none → s.raw_transaction = none →
      s.isSignedTxWithNonce = false →
      WalletAdapterSigner.extractRaw s =
        .error (.valueError "Unknown signed transaction format" none)) ∧
    (∀ (web3 : Web3) (w : Wallet) (tx : TxParams) (s : SignedResult)
        (w' : Wallet) (tx' : TxParams) (b : Bytes),
      (∀ p, w ≠ .provider p) →
      WalletAdapterSigner.sign_transaction w tx = (.ok s, w', tx') →
      WalletAdapterSigner.extractRaw s = .ok b →
      (WalletAdapterSigner.send_transaction web3 w tx).1 =
        (match web3.send_raw_transaction b with
         | .ok hsh => .ok hsh
         | .error e => .error (WalletAdapterSigner.wrapSendErr e))) ∧
    (∀ (web3 : Web3) (w : Wallet) (tx : TxParams) (s : SignedResult)
        (w' : Wallet) (tx' : TxParams) (e : Exc),
      (∀ p, w ≠ .provider p) →
      WalletAdapterSigner.sign_transaction w tx = (.ok s, w', tx') →
      WalletAdapterSigner.extractRaw s = .error e →
      (WalletAdapterSigner.send_transaction web3 w tx).1 =
        .error (WalletAdapterSigner.wrapSendErr e)) := by
  refine ⟨?_, ?_, ?_, ?_, ?_, ?_⟩
  · intro s b hb
    unfold WalletAdapterSigner.extractRaw
    rw [hb]
  · intro s b h1 h2
    unfold WalletAdapterSigner.extractRaw
    rw [h1, h2]
  · intro s h1 h2 h3
    unfold WalletAdapterSigner.extractRaw
    rw [h1, h2, h3]
    rfl
  · intro s h1 h2 h3
    unfold WalletAdapterSigner.extractRaw
    rw [h1, h2, h3]
    rfl
  · intro web3 w tx s w' tx' b hnp hsig hext
    cases w with
    | provider p => exact absurd rfl (hnp p)
    | hot h =>
      unfold WalletAdapterSigner.send_transaction
      rw [hsig]
      dsimp only
      rw [hext]
      dsimp only
      cases web3.send_raw_transaction b <;> rfl
    | generic g =>
      unfold WalletAdapterSigner.send_transaction
      rw [hsig]
      dsimp only
      rw [hext]
      dsimp only
      cases web3.send_raw_transaction b <;> rfl
  · intro web3 w tx s w' tx' e hnp hsig hext
    cases w with
    | provider p => exact absurd rfl (hnp p)
    | hot h =>
      unfold WalletAdapterSigner.send_transaction
      rw [hsig]
      dsimp only
      rw [hext]
    | generic g =>
      unfold WalletAdapterSigner.send_transaction
      rw [hsig]
      dsimp only
      rw [hext]

/-- C8 witness: each accessor shape extracted in order, and the extracted
bytes `[9, 9]` echoed back by the chain client as the submitted payload. -/
theorem send_raw_extraction_w :
    WalletAdapterSigner.extractRaw srSample = .ok [9, 9] ∧
    WalletAdapterSigner.extractRaw ⟨none, some [7], false, []⟩ = .ok [7] ∧
    WalletAdapterSigner.extractRaw ⟨none, none, true, [5]⟩ = .ok [5] ∧
    WalletAdapterSigner.extractRaw srNoAccessor =
      .error (.valueError "Unknown signed transaction format" none) ∧
    (WalletAdapterSigner.send_transaction w3Echo (.hot hotC8) txC8).1 = .ok [9, 9] := by
  obtain ⟨h1, h2, h3, h4, h5, _⟩ := send_raw_extraction
  exact ⟨h1 srSample [9, 9] rfl, h2 ⟨none, some [7], false, []⟩ [7] rfl rfl,
    h3 ⟨none, none, true, [5]⟩ rfl rfl rfl, h4 srNoAccessor rfl rfl rfl,
    h5 w3Echo (.hot hotC8) txC8 srSample
      (.hot { hotC8 with current_nonce := some 2 }) txC8 [9, 9]
      (fun p h => Wallet.noConfusion h) rfl rfl⟩

/-- C5 counterexample: on the remote-delegated path the chain-client call
runs before the `try` block, so its backend error reaches the caller as-is —
the value `backendRaised "boom"`, which is not a `ValueError`
wrapper of any cause, refuting the claim that every exception inside
`send_transaction` is re-raised as TransactionSendFailed. -/
theorem provider_send_error_unwrapped_cex :
    (WalletAdapterSigner.send_transaction w3Boom (.provider pC5)
        [("value", .nat 1)]).1 = .error (.backendRaised "boom") ∧
    ∀ m c, (Exc.backendRaised "boom") ≠ (Exc.valueError m c) :=
  ⟨rfl, fun _ _ h => Exc.noConfusion h⟩

/-- C5 amended: on every non-delegated backend path, any exception arising
inside `send_transaction` — from signing, raw-byte extraction, or raw
submission — surfaces as the `ValueError("Failed to send transaction: ...")`
wrapper carrying the original cause; on the remote-delegated path the
chain-client outcome (including any exception) passes to the caller
untouched. -/
theorem send_errors_wrapped_non_delegated :
    (∀ (web3 : Web3) (w : Wallet) (tx : TxParams) (e : Exc),
      (∀ p, w ≠ .provider p) →
      (WalletAdapterSigner.send_transaction web3 w tx).1 = .error e →
      ∃ e0, e = WalletAdapterSigner.wrapSendErr e0) ∧
    (∀ (web3 : Web3) (p : Web3ProviderWallet) (tx : TxParams),
      (WalletAdapterSigner.send_transaction web3 (.provider p) tx).1 =
        web3.send_transaction (WalletAdapterSigner.providerTxPayload p tx)) := by
  constructor
  · intro web3 w tx e hnp herr
    cases w with
    | provider p => exact absurd rfl (hnp p)
    | hot h =>
      unfold WalletAdapterSigner.send_transaction at herr
      rcases hst : WalletAdapterSigner.sign_transaction (.hot h) tx with ⟨r, w2, tx2⟩
      rw [hst] at herr
      cases r with
      | error e0 =>
        simp only [Except.error.injEq] at herr
        exact ⟨e0, herr.symm⟩
      | ok s =>
        dsimp only at herr
        cases hext : WalletAdapterSigner.extractRaw s with
        | error e0 =>
          rw [hext] at herr
          simp only [Except.error.injEq] at herr
          exact ⟨e0, herr.symm⟩
        | ok b =>
          rw [hext] at herr
          dsimp only at herr
          cases hsr : web3.send_raw_transaction b with
          | error e0 =>
            rw [hsr] at herr
            simp only [Except.error.injEq] at herr
            exact ⟨e0, herr.symm⟩
          | ok hsh =>
            rw [hsr] at herr
            simp at herr
    | generic g =>
      unfold WalletAdapterSigner.send_transaction at herr
      rcases hst : WalletAdapterSigner.sign_transaction (.generic g) tx with ⟨r, w2, tx2⟩
      rw [hst] at herr
      cases r with
      | error e0 =>
        simp only [Except.error.injEq] at herr
        exact ⟨e0, herr.symm⟩
      | ok s =>
        dsimp only at herr
        cases hext : WalletAdapterSigner.extractRaw s with
        | error e0 =>
          rw [hext] at herr
          simp only [Except.error.injEq] at herr
          exact ⟨e0, herr.symm⟩
        | ok b =>
          rw [hext] at herr
          dsimp only at herr
          cases hsr : web3.send_raw_transaction b with
          | error e0 =>
            rw [hsr] at herr
            simp only [Except.error.injEq] at herr
            exact ⟨e0, herr.symm⟩
          | ok hsh =>
            rw [hsr] at herr
            simp at herr
  · intro web3 p tx
    rfl

/-- C5 amended witness: a local wallet whose account signing fails with the
backend error `backendRaised "sigfail"`; the caller observes the
TransactionSendFailed wrapper carrying that cause, and a delegated send
returns exactly the chain client's outcome on the from-stripped payload. -/
theorem send_errors_wrapped_non_delegated_w :
    (WalletAdapterSigner.send_transaction w3Echo (.hot hotFail) txC5).1 =
      .error (.valueError "Failed to send transaction: sigfail"
        (some (.backendRaised "sigfail"))) ∧
    (∃ e0, (Exc.valueError "Failed to send transaction: sigfail"
        (some (.backendRaised "sigfail"))) = WalletAdapterSigner.wrapSendErr e0) ∧
    (WalletAdapterSigner.send_transaction w3Echo (.provider pC5)
        [("value", .nat 2)]).1 =
      w3Echo.send_transaction
        (WalletAdapterSigner.providerTxPayload pC5 [("value", .nat 2)]) := by
  obtain ⟨h1, h2⟩ := send_errors_wrapped_non_delegated
  exact ⟨rfl,
    h1 w3Echo (.hot hotFail) txC5
      (.valueError "Failed to send transaction: sigfail" (some (.backendRaised "sigfail")))
      (fun p h => Wallet.noConfusion h) rfl,
    h2 w3Echo pC5 [("value", .nat 2)]⟩

/-- Reflexivity of `cacheLe`. -/
theorem cacheLe_refl (a : Option Nat) : cacheLe a a :=
  fun n h => ⟨n, h, le_rfl⟩

/-- The adapter operation `sign_message` never writes any wallet field. -/
theorem sign_message_wallet_unchanged (w : Wallet) (m : MessageInput) :
    (WalletAdapterSigner.sign_message w m).2 = w := by
  unfold WalletAdapterSigner.sign_message
  cases normalizeMessage m with
  | error e => rfl
  | ok body =>
    dsimp only
    split <;> rfl

/-- The adapter's `sign_transaction` never retreats a set cached
next-sequence-number, assuming the wallet's own allocate-and-sign
honors the same contract. -/
theorem sign_transaction_cache_mono (w : Wallet) (tx : TxParams)
    (hext : extMonotone w) :
    cacheLe (cacheOf w) (cacheOf (WalletAdapterSigner.sign_transaction w tx).2.1) := by
  cases hn : dictGet tx "nonce" with
  | none =>
    cases w with
    | hot h =>
      unfold WalletAdapterSigner.sign_transaction
      rw [hn]
      dsimp only
      exact hext tx h.current_nonce
    | provider p =>
      unfold WalletAdapterSigner.sign_transaction
      rw [hn]
      dsimp only
      exact cacheLe_refl _
    | generic g =>
      unfold WalletAdapterSigner.sign_transaction
      rw [hn]
      dsimp only
      exact hext tx g.current_nonce
  | some nv =>
    cases w with
    | provider p =>
      unfold WalletAdapterSigner.sign_transaction
      rw [hn]
      dsimp only
      exact cacheLe_refl _
    | hot h =>
      unfold WalletAdapterSigner.sign_transaction
      rw [hn]
      dsimp only
      cases hacc : h.account.sign_transaction_fn tx with
      | error e => exact cacheLe_refl _
      | ok r =>
        dsimp only
        cases hcn : h.current_nonce with
        | none => exact cacheLe_refl _
        | some c =>
          cases nv with
          | nat n =>
            intro m hm
            have hm2 : h.current_nonce = some m := hm
            rw [hcn] at hm2
            have hcm : c = m := by injection hm2
            subst hcm
            exact ⟨max (n + 1) c, rfl, le_max_right _ _⟩
          | str s => exact cacheLe_refl _
          | bytes b => exact cacheLe_refl _
    | generic g =>
      unfold WalletAdapterSigner.sign_transaction
      rw [hn]
      dsimp only
      rcases hst : g.sign_transaction_with_new_nonce (dictRemove tx "nonce")
          g.current_nonce with ⟨res, a'⟩
      have hm : cacheLe (flatNonce g.current_nonce) (flatNonce a') := by
        have hx := hext (dictRemove tx "nonce") g.current_nonce
        rw [hst] at hx
        exact hx
      cases res with
      | error e => exact hm
      | ok r =>
        dsimp only
        cases a' with
        | none => exact hm
        | some a2 =>
          cases a2 with
          | none => exact hm
          | some c =>
            cases nv with
            | nat n =>
              dsimp only
              intro m hm2
              obtain ⟨k, hk, hmk⟩ := hm m hm2
              have hkc : c = k := by
                simpa [flatNonce] using hk
              subst hkc
              exact ⟨max (n + 1) c, rfl, hmk.trans (le_max_right _ _)⟩
            | str s => exact hm
            | bytes b => exact hm

/-- The adapter's `send_transaction` never retreats a set cached
next-sequence-number, under the same external-wallet contract. -/
theorem send_transaction_cache_mono (web3 : Web3) (w : Wallet) (tx : TxParams)
    (hext : extMonotone w) :
    cacheLe (cacheOf w) (cacheOf (WalletAdapterSigner.send_transaction web3 w tx).2.1) := by
  have hsig := sign_transaction_cache_mono w tx hext
  cases w with
  | provider p =>
    unfold WalletAdapterSigner.send_transaction
    exact cacheLe_refl _
  | hot h =>
    unfold WalletAdapterSigner.send_transaction
    dsimp only
    rcases hst : WalletAdapterSigner.sign_transaction (.hot h) tx with ⟨r, w2, tx2⟩
    rw [hst] at hsig
    cases r with
    | error e => exact hsig
    | ok s =>
      dsimp only
      cases WalletAdapterSigner.extractRaw s with
      | error e => exact hsig
      | ok b =>
        dsimp only
        cases web3.send_raw_transaction b with
        | error e => exact hsig
        | ok hsh => exact hsig
  | generic g =>
    unfold WalletAdapterSigner.send_transaction
    dsimp only
    rcases hst : WalletAdapterSigner.sign_transaction (.generic g) tx with ⟨r, w2, tx2⟩
    rw [hst] at hsig
    cases r with
    | error e => exact hsig
    | ok s =>
      dsimp only
      cases WalletAdapterSigner.extractRaw s with
      | error e => exact hsig
      | ok b =>
        dsimp only
        cases web3.send_raw_transaction b with
        | error e => exact hsig
        | ok hsh => exact hsig

/-- C2: on a wallet whose cached next-sequence-number is set, none of the
adapter operations — `sign_message`, `sign_transaction`, `send_transaction`
— ends (successfully or with a failure threaded back) with a smaller cached
value: the adapter only ever writes `max (n+1) current`, given that the
wallet's own allocate-and-sign honors the same non-retreat contract. -/
theorem adapter_cache_monotone (w : Wallet) (m : MessageInput) (tx : TxParams)
    (web3 : Web3) (hext : extMonotone w) :
    cacheLe (cacheOf w) (cacheOf (WalletAdapterSigner.sign_message w m).2) ∧
    cacheLe (cacheOf w) (cacheOf (WalletAdapterSigner.sign_transaction w tx).2.1) ∧
    cacheLe (cacheOf w) (cacheOf (WalletAdapterSigner.send_transaction web3 w tx).2.1) :=
  ⟨by rw [sign_message_wallet_unchanged]; exact cacheLe_refl _,
   sign_transaction_cache_mono w tx hext,
   send_transaction_cache_mono web3 w tx hext⟩

/-- C2 witness: a local wallet with cached nonce 5 whose own allocator
advances the cache by one; all three operations leave the cache at least
5. -/
theorem adapter_cache_monotone_w :
    cacheLe (cacheOf (.hot hotC2))
      (cacheOf (WalletAdapterSigner.sign_message (.hot hotC2) (.str "m")).2) ∧
    cacheLe (cacheOf (.hot hotC2))
      (cacheOf (WalletAdapterSigner.sign_transaction (.hot hotC2) txC2).2.1) ∧
    cacheLe (cacheOf (.hot hotC2))
      (cacheOf (WalletAdapterSigner.send_transaction w3Echo (.hot hotC2) txC2).2.1) := by
  have hext : extMonotone (.hot hotC2) := by
    intro tx cn n h
    refine ⟨n + 1, ?_, Nat.le_succ n⟩
    show Option.map (· + 1) cn = some (n + 1)
    rw [h]
    rfl
  exact adapter_cache_monotone (.hot hotC2) (.str "m") txC2 w3Echo hext
